import Mathlib

/- The Batteries rational arithmetic operations are marked irreducible;
they are made semireducible here so that concrete runs of the embedded
algorithms can be evaluated definitionally (`rfl` / `decide`). -/
attribute [local semireducible] Rat.add Rat.mul Rat.inv Rat.sub

/-
Verification development for nica_algorithms.py (Bio-NICA, 2-layer NSM,
Nonnegative PCA: online algorithms for nonnegative independent component
analysis).

Embedding conventions:
* Real-valued numpy vectors are `List ℚ`, 2-D arrays are `List (List ℚ)`;
  all arithmetic is exact rational arithmetic.
* The learners' `self` objects become state records; `fit_next` and
  `flip_weights` become state-transition functions.  A failing call raises
  a Python exception; this is modelled by `Except (state × Err) ...` where
  the error value carries the state as already mutated at the point the
  exception is raised (so fail-fast / partial-mutation behaviour is
  observable).
* `assert` statements on shapes map to `Err.shapeError`; `assert` on
  indices and numpy out-of-range indexing map to `Err.indexError`; numpy
  dimension-mismatch `ValueError`s in `@` products map to
  `Err.dimMismatch`; `np.linalg.inv` on a singular matrix maps to
  `Err.singularMatrix`; failure of the external `quadprog.solve_qp`
  primitive maps to `Err.solverError`.
* The quadratic-programming primitive `solve_qp` is an external
  collaborator; it is a parameter `qp : QPSolver` of the embedding.
  The random default weight initialisation (`np.random.randn` followed by
  row normalisation) is likewise external and becomes a parameter
  `defW : Nat → Nat → Mat` of the constructors.
* `np.linalg.det` and `np.linalg.inv` are modelled by the exact cofactor
  determinant `detL` and adjugate inverse `matInvL`.
-/

abbrev Vec := List ℚ

abbrev Mat := List (List ℚ)

/-- Dot product of two vectors. -/
def dotL (a b : Vec) : ℚ := (List.zipWith (fun p q => p * q) a b).sum

/-- Componentwise vector addition. -/
def vadd (a b : Vec) : Vec := List.zipWith (fun p q => p + q) a b

/-- Componentwise vector subtraction. -/
def vsub (a b : Vec) : Vec := List.zipWith (fun p q => p - q) a b

/-- Scalar multiple of a vector. -/
def vscale (c : ℚ) (a : Vec) : Vec := a.map (fun p => c * p)

/-- Outer product `np.outer a b`. -/
def outerL (a b : Vec) : Mat := a.map (fun p => b.map (fun q => p * q))

/-- Entrywise matrix addition. -/
def matAdd (A B : Mat) : Mat := List.zipWith vadd A B

/-- Entrywise matrix subtraction. -/
def matSub (A B : Mat) : Mat := List.zipWith vsub A B

/-- Scalar multiple of a matrix. -/
def smulMat (c : ℚ) (A : Mat) : Mat := A.map (vscale c)

/-- Zero vector `np.zeros n`. -/
def zerosV (n : Nat) : Vec := List.replicate n 0

/-- Identity matrix `np.eye n`. -/
def eyeL (n : Nat) : Mat :=
  (List.range n).map (fun i => (List.range n).map (fun j => if i = j then (1 : ℚ) else 0))

/-- Transpose of a (rectangular) matrix. -/
def transposeL (A : Mat) : Mat :=
  (List.range (A.headD []).length).map (fun j => A.map (fun r => r.getD j 0))

/-- Matrix product `A @ B`. -/
def matMulL (A B : Mat) : Mat :=
  A.map (fun r => (transposeL B).map (fun col => dotL r col))

/-- Shape of a 2-D array: (rows, columns). -/
def matShape (A : Mat) : Nat × Nat := (A.length, (A.headD []).length)

/-- Laplace-expansion determinant with an explicit fuel argument (the fuel
is the row count, which strictly decreases into minors). -/
def detAux : Nat → Mat → ℚ
  | _, [] => 1
  | 0, _ :: _ => 1
  | fuel + 1, r :: rows =>
      ((List.range r.length).map
        (fun j => (-1 : ℚ) ^ j * r.getD j 0 *
          detAux fuel (rows.map (fun row => row.eraseIdx j)))).sum

/-- Determinant of a square matrix (`np.linalg.det`, exact). -/
def detL (A : Mat) : ℚ := detAux A.length A

/-- Adjugate matrix: entry (i, j) is the (j, i) cofactor. -/
def adjL (A : Mat) : Mat :=
  (List.range A.length).map (fun i =>
    (List.range A.length).map (fun j =>
      (-1 : ℚ) ^ (i + j) * detL ((A.eraseIdx j).map (fun r => r.eraseIdx i))))

/-- Matrix inverse (`np.linalg.inv`, exact adjugate formula; only used
behind a non-zero-determinant guard). -/
def matInvL (A : Mat) : Mat := smulMat (1 / detL A) (adjL A)

/-- Failure modes of the learners (see the embedding conventions above). -/
inductive Err
  | shapeError
  | indexError
  | dimMismatch
  | singularMatrix
  | solverError
deriving DecidableEq, Repr

/-- Type of the external quadratic-programming primitive
`solve_qp(G, a, C, b)`, returning `argmin (1/2)yᵗGy − aᵗy  s.t.  Cᵗy ≥ b`
when it succeeds. -/
abbrev QPSolver := Mat → Vec → Mat → Vec → Option Vec

/-- Matrix-vector product `A @ v`; numpy raises a dimension-mismatch error
unless the length of `v` equals the column count of `A`. -/
def matVecE (A : Mat) (v : Vec) : Except Err Vec :=
  if A.all (fun r => r.length = v.length) then .ok (A.map (fun r => dotL r v))
  else .error .dimMismatch

/-- Full-history running-mean update `mean + (sample - mean)/(t+1)`. -/
def fullMeanUpd (mean sample : Vec) (t : Nat) : Vec :=
  vadd mean (vscale (1 / ((t : ℚ) + 1)) (vsub sample mean))

/-- Fixed-window running-mean update `mean + (sample - mean)/100`. -/
def fixedMeanUpd (mean sample : Vec) : Vec :=
  vadd mean (vscale (1 / 100) (vsub sample mean))

/-- Degeneracy guard on a lateral matrix: if the determinant is below
`10^-4`, add `0.1 * np.eye n` once. -/
def stabilizeL (n : Nat) (A : Mat) : Mat :=
  if detL A < 1 / 10000 then matAdd A (smulMat (1 / 10) (eyeL n)) else A

/-- Negate row `j` of a matrix in place: `W[j,:] = -W[j,:]`. -/
def negRowNat (A : Mat) (j : Nat) : Mat := A.set j ((A.getD j []).map (fun p => -p))

/-- Every component of the vector is nonnegative. -/
def allNonneg (v : Vec) : Prop := ∀ p ∈ v, 0 ≤ p

instance (v : Vec) : Decidable (allNonneg v) := List.decidableBAll _ v

/-- The enumerated dataset preset names. -/
inductive Dataset
  | synth3
  | synth10
  | image
deriving DecidableEq, Repr

/-- State of a `bio_nica` learner instance. -/
structure BioState where
  s_dim : Nat
  x_dim : Nat
  eta0 : ℚ
  decay : ℚ
  tau : ℚ
  t : Nat
  x_bar : Vec
  c_bar : Vec
  W : Mat
  M : Mat
deriving DecidableEq, Repr

namespace bio_nica

/-- Dataset-keyed hyperparameter resolution of `bio_nica.__init__`
(explicit values override the preset). -/
def hyper (dataset : Option Dataset) (eta0o decayo tauo : Option ℚ) : ℚ × ℚ × ℚ :=
  match dataset with
  | some .synth3 => (eta0o.getD (1 / 10), decayo.getD (1 / 100), tauo.getD (4 / 5))
  | some .synth10 => (eta0o.getD (1 / 1000), decayo.getD (1 / 10000), tauo.getD (3 / 100))
  | some .image => (eta0o.getD (1 / 1000), decayo.getD (1 / 1000000), tauo.getD (1 / 10))
  | none => (eta0o.getD (1 / 10), decayo.getD (1 / 1000), tauo.getD (1 / 2))

/-- Constructor `bio_nica.__init__`.  `defW` models the external random
row-normalised default initialisation. -/
def init (defW : Nat → Nat → Mat) (s_dim x_dim : Nat) (dataset : Option Dataset)
    (M0 W0 : Option Mat) (eta0o decayo tauo : Option ℚ) : Except Err BioState :=
  match (match M0 with
         | some A => if matShape A = (s_dim, s_dim) then .ok A else .error Err.shapeError
         | none => .ok (eyeL s_dim) : Except Err Mat) with
  | .error e => .error e
  | .ok M =>
    match (match W0 with
           | some A => if matShape A = (s_dim, x_dim) then .ok A else .error Err.shapeError
           | none => .ok (defW s_dim x_dim) : Except Err Mat) with
    | .error e => .error e
    | .ok W =>
      let hp := hyper dataset eta0o decayo tauo
      .ok { s_dim := s_dim, x_dim := x_dim, eta0 := hp.1, decay := hp.2.1, tau := hp.2.2,
            t := 0, x_bar := zerosV x_dim, c_bar := zerosV s_dim, W := W, M := M }

/-- Core computation of `bio_nica.fit_next` after the input-shape assert:
project, solve the nonnegative QP, update means, then weights.  On failure
the error carries the value of `x_bar` as already mutated (the `x_bar +=`
on line 106 is an in-place numpy update). -/
def step_core (qp : QPSolver) (s_dim t : Nat) (eta0 decay tau : ℚ)
    (x_bar c_bar : Vec) (W M : Mat) (x : Vec) :
    Except (Vec × Err) (Vec × Vec × Mat × Mat × Vec) :=
  match matVecE W x with
  | .error e => .error (x_bar, e)
  | .ok c =>
    match qp M c (eyeL s_dim) (zerosV s_dim) with
    | none => .error (x_bar, Err.solverError)
    | some y =>
      if x.length = x_bar.length then
        let xb := fullMeanUpd x_bar x t
        if c.length = c_bar.length then
          let cb := fixedMeanUpd c_bar c
          let step := eta0 / (1 + decay * (t : ℚ))
          let W2 := matAdd W (smulMat (2 * step)
            (matSub (outerL y x) (outerL (vsub c cb) (vsub x xb))))
          let M2 := stabilizeL s_dim
            (matAdd M (smulMat (step / tau) (matSub (outerL y y) M)))
          .ok (xb, cb, W2, M2, y)
        else .error (xb, Err.dimMismatch)
      else .error (x_bar, Err.dimMismatch)

/-- Method `bio_nica.fit_next`. -/
def fit_next (qp : QPSolver) (st : BioState) (x : Vec) :
    Except (BioState × Err) (BioState × Vec) :=
  if x.length = st.x_dim then
    match step_core qp st.s_dim st.t st.eta0 st.decay st.tau st.x_bar st.c_bar st.W st.M x with
    | .error (xb, e) => .error ({ st with x_bar := xb }, e)
    | .ok (xb, cb, W2, M2, y) =>
        .ok ({ st with x_bar := xb, c_bar := cb, W := W2, M := M2, t := st.t + 1 }, y)
  else .error (st, Err.shapeError)

/-- Method `bio_nica.flip_weights`: assert `0 <= j < s_dim`, then negate
row `j` of `W` (numpy itself raises if `j` is not a valid row of `W`). -/
def flip_weights (st : BioState) (j : Int) : Except (BioState × Err) BioState :=
  if 0 ≤ j ∧ j < (st.s_dim : Int) then
    if j.toNat < st.W.length then .ok { st with W := negRowNat st.W j.toNat }
    else .error (st, Err.indexError)
  else .error (st, Err.indexError)

end bio_nica

/-- State of a `two_layer_nsm` learner instance. -/
structure TwoState where
  s_dim : Nat
  x_dim : Nat
  eta0 : ℚ
  decay : ℚ
  t : Nat
  x_bar : Vec
  h_bar : Vec
  g_bar : Vec
  Whx : Mat
  Wgh : Mat
  Wyh : Mat
  Wyy : Mat
deriving DecidableEq, Repr

namespace two_layer_nsm

/-- Dataset-keyed hyperparameter resolution of `two_layer_nsm.__init__`. -/
def hyper (dataset : Option Dataset) (eta0o decayo : Option ℚ) : ℚ × ℚ :=
  match dataset with
  | some .synth3 => (eta0o.getD (1 / 10), decayo.getD (1 / 10000000))
  | some .synth10 => (eta0o.getD (1 / 10), decayo.getD (1 / 1000000))
  | _ => (eta0o.getD (1 / 10), decayo.getD (1 / 1000))

/-- Constructor `two_layer_nsm.__init__`.  Note: the source's shape assert
for an explicit `Whx0` compares against `(s_dim, s_dim)` (line 163), even
though the docstring and the assert's own message demand
`(s_dim, x_dim)`; the comparison is transcribed as written. -/
def init (defW : Nat → Nat → Mat) (s_dim x_dim : Nat) (dataset : Option Dataset)
    (Whx0 Wgh0 Wyh0 Wyy0 : Option Mat) (eta0o decayo : Option ℚ) : Except Err TwoState :=
  match (match Whx0 with
         | some A => if matShape A = (s_dim, s_dim) then .ok A else .error Err.shapeError
         | none => .ok (defW s_dim x_dim) : Except Err Mat) with
  | .error e => .error e
  | .ok Whx =>
    match (match Wgh0 with
           | some A => if matShape A = (s_dim, s_dim) then .ok A else .error Err.shapeError
           | none => .ok (eyeL s_dim) : Except Err Mat) with
    | .error e => .error e
    | .ok Wgh =>
      match (match Wyh0 with
             | some A => if matShape A = (s_dim, s_dim) then .ok A else .error Err.shapeError
             | none => .ok (defW s_dim s_dim) : Except Err Mat) with
      | .error e => .error e
      | .ok Wyh =>
        match (match Wyy0 with
               | some A => if matShape A = (s_dim, s_dim) then .ok A else .error Err.shapeError
               | none => .ok (eyeL s_dim) : Except Err Mat) with
        | .error e => .error e
        | .ok Wyy =>
          let hp := hyper dataset eta0o decayo
          .ok { s_dim := s_dim, x_dim := x_dim, eta0 := hp.1, decay := hp.2,
                t := 0, x_bar := zerosV x_dim, h_bar := zerosV s_dim,
                g_bar := zerosV s_dim, Whx := Whx, Wgh := Wgh, Wyh := Wyh, Wyy := Wyy }

/-- Method `two_layer_nsm.fit_next`.  There is no input-shape assert; the
first computation is `inv(Wgh.T @ Wgh)`, and the whitening-stage state is
written before the rotation stage runs, so a rotation-stage failure leaves
the whitening-stage updates in place (matching the source's mutation
order). -/
def fit_next (qp : QPSolver) (st : TwoState) (x : Vec) :
    Except (TwoState × Err) (TwoState × Vec) :=
  let G := matMulL (transposeL st.Wgh) st.Wgh
  if detL G = 0 then .error (st, Err.singularMatrix)
  else
    match matVecE (matMulL (matInvL G) st.Whx) x with
    | .error e => .error (st, e)
    | .ok h =>
      match matVecE st.Wgh h with
      | .error e => .error (st, e)
      | .ok g =>
        if x.length = st.x_bar.length ∧ h.length = st.h_bar.length ∧
            g.length = st.g_bar.length then
          let xb := fullMeanUpd st.x_bar x st.t
          let hb := fullMeanUpd st.h_bar h st.t
          let gb := fullMeanUpd st.g_bar g st.t
          let Whx2 := matAdd st.Whx (smulMat (1 / (100 + (st.t : ℚ)))
            (matSub (outerL (vsub h hb) (vsub x xb)) st.Whx))
          let Wgh2 := matAdd st.Wgh (smulMat (1 / (100 + (st.t : ℚ)))
            (matSub (outerL (vsub g gb) (vsub h hb)) st.Wgh))
          let st2 := { st with x_bar := xb, h_bar := hb, g_bar := gb,
                               Whx := Whx2, Wgh := Wgh2 }
          match matVecE st.Wyh h with
          | .error e => .error (st2, e)
          | .ok c =>
            match qp st.Wyy c (eyeL st.s_dim) (zerosV st.s_dim) with
            | none => .error (st2, Err.solverError)
            | some y =>
              let step := st.eta0 / (1 + st.decay * (st.t : ℚ))
              let Wyh2 := matAdd st.Wyh (smulMat step (matSub (outerL y h) st.Wyh))
              let Wyy2 := stabilizeL st.s_dim
                (matAdd st.Wyy (smulMat step (matSub (outerL y y) st.Wyy)))
              .ok ({ st2 with Wyh := Wyh2, Wyy := Wyy2, t := st.t + 1 }, y)
        else .error (st, Err.dimMismatch)

/-- Method `two_layer_nsm.flip_weights`: assert `0 <= j < s_dim`, then
negate row `j` of `Wyh`. -/
def flip_weights (st : TwoState) (j : Int) : Except (TwoState × Err) TwoState :=
  if 0 ≤ j ∧ j < (st.s_dim : Int) then
    if j.toNat < st.Wyh.length then .ok { st with Wyh := negRowNat st.Wyh j.toNat }
    else .error (st, Err.indexError)
  else .error (st, Err.indexError)

end two_layer_nsm

/-- State of a `nonnegative_pca` learner instance. -/
structure PcaState where
  s_dim : Nat
  x_dim : Nat
  eta0 : ℚ
  decay : ℚ
  t : Nat
  W : Mat
deriving DecidableEq, Repr

namespace nonnegative_pca

/-- Dataset-keyed hyperparameter resolution of `nonnegative_pca.__init__`. -/
def hyper (dataset : Option Dataset) (eta0o decayo : Option ℚ) : ℚ × ℚ :=
  match dataset with
  | some .synth3 => (eta0o.getD (1 / 10), decayo.getD (1 / 100000))
  | some .synth10 => (eta0o.getD (1 / 100), decayo.getD (1 / 100000))
  | _ => (eta0o.getD (1 / 10), decayo.getD (1 / 1000))

/-- Constructor `nonnegative_pca.__init__`. -/
def init (defW : Nat → Nat → Mat) (s_dim x_dim : Nat) (dataset : Option Dataset)
    (W0 : Option Mat) (eta0o decayo : Option ℚ) : Except Err PcaState :=
  match (match W0 with
         | some A => if matShape A = (s_dim, x_dim) then .ok A else .error Err.shapeError
         | none => .ok (defW s_dim x_dim) : Except Err Mat) with
  | .error e => .error e
  | .ok W =>
    let hp := hyper dataset eta0o decayo
    .ok { s_dim := s_dim, x_dim := x_dim, eta0 := hp.1, decay := hp.2, t := 0, W := W }

/-- Method `nonnegative_pca.fit_next`: rectified projection, then a single
weight update. -/
def fit_next (st : PcaState) (x : Vec) : Except (PcaState × Err) (PcaState × Vec) :=
  if x.length = st.x_dim then
    match matVecE st.W x with
    | .error e => .error (st, e)
    | .ok p =>
      let y := p.map (fun a => max a 0)
      let step := st.eta0 / (1 + st.decay * (st.t : ℚ))
      let W2 := matAdd st.W (smulMat step (matSub (outerL y x) (matMulL (outerL y y) st.W)))
      .ok ({ st with W := W2, t := st.t + 1 }, y)
  else .error (st, Err.shapeError)

/-- Method `nonnegative_pca.flip_weights`: no bounds assert; numpy row
indexing wraps a negative index by the row count and raises `IndexError`
outside `[-rows, rows)`. -/
def flip_weights (st : PcaState) (j : Int) : Except (PcaState × Err) PcaState :=
  let n := st.W.length
  let jeff := if j < 0 then j + (n : Int) else j
  if 0 ≤ jeff ∧ jeff < (n : Int) then .ok { st with W := negRowNat st.W jeff.toNat }
  else .error (st, Err.indexError)

end nonnegative_pca

/-- A concrete solver instance used for concrete runs: it returns the zero
vector of the appropriate length.  At every call site where it is used in
this development, the linear term is `0` and the quadratic matrix is
positive definite, so the zero vector is the genuine constrained argmin. -/
def qpZero : QPSolver := fun _ c _ _ => some (c.map (fun _ => 0))

/-- The full-history running mean of §4.1, started at zero and fed the
constant sample `x0` for `n` steps. -/
def iterateConstMean (x0 : Vec) : Nat → Vec
  | 0 => zerosV x0.length
  | n + 1 => fullMeanUpd (iterateConstMean x0 n) x0 n

/-
Object-identity model for the aliasing behaviour of `bio_nica.__init__`:
numpy arrays live in a store (list of matrices) and the learner state
holds indices into that store.  `__init__` stores the caller's `M0` and
`W0` objects without copying (`self.M = M0`), and `fit_next` updates `W`
and `M` with in-place `+=`, i.e. it writes through the caller's
references.  The model assumes the two references are distinct (the
source reads both local variables once and then updates them in place;
with `M0` and `W0` the same object even the reads would interact).
-/

/-- A store of numpy array objects, addressed by index. -/
abbrev Store := List Mat

/-- State of a `bio_nica` learner in the store model: the matrices `W`,
`M` are references into the store; the remaining fields are plain
values. -/
structure BioRef where
  s_dim : Nat
  x_dim : Nat
  eta0 : ℚ
  decay : ℚ
  tau : ℚ
  t : Nat
  x_bar : Vec
  c_bar : Vec
  Wref : Nat
  Mref : Nat
deriving DecidableEq, Repr

namespace bio_nica

/-- Constructor `bio_nica.__init__` in the store model with explicit
`M0`, `W0`: the supplied objects are validated for shape and then stored
by reference, without copying. -/
def init_refs (s_dim x_dim : Nat) (store : Store) (M0ref W0ref : Nat)
    (eta0 decay tau : ℚ) : Except Err BioRef :=
  if matShape (store.getD M0ref []) = (s_dim, s_dim) then
    if matShape (store.getD W0ref []) = (s_dim, x_dim) then
      .ok { s_dim := s_dim, x_dim := x_dim, eta0 := eta0, decay := decay, tau := tau,
            t := 0, x_bar := zerosV x_dim, c_bar := zerosV s_dim,
            Wref := W0ref, Mref := M0ref }
    else .error Err.shapeError
  else .error Err.shapeError

/-- Method `bio_nica.fit_next` in the store model: the same computation
as `fit_next`, but `W` and `M` are read from and written back to the
store (the in-place `W += ...`, `M += ...` of the source). -/
def fit_next_refs (qp : QPSolver) (store : Store) (st : BioRef) (x : Vec) :
    Except (Store × BioRef × Err) (Store × BioRef × Vec) :=
  if x.length = st.x_dim then
    match step_core qp st.s_dim st.t st.eta0 st.decay st.tau st.x_bar st.c_bar
        (store.getD st.Wref []) (store.getD st.Mref []) x with
    | .error (xb, e) => .error (store, { st with x_bar := xb }, e)
    | .ok (xb, cb, W2, M2, y) =>
        .ok ((store.set st.Wref W2).set st.Mref M2,
             { st with x_bar := xb, c_bar := cb, t := st.t + 1 }, y)
  else .error (store, st, Err.shapeError)

end bio_nica

/-
Concrete instances used by witnesses and counterexamples.
-/

/-- A concrete deterministic stand-in for the external random
row-normalised default weight initialisation. -/
def defWones (s x : Nat) : Mat := List.replicate s (List.replicate x (1 : ℚ))

/-- A concrete `bio_nica` state: 2 sources, 1 mixture, zero forward
matrix (so the projection is `0` and the zero vector is the exact
constrained argmin for the positive definite `M`), `eta0 = 1.001`,
`decay = 0`, `tau = 1`. -/
def stC5 : BioState :=
  { s_dim := 2, x_dim := 1, eta0 := 1001/1000, decay := 0, tau := 1, t := 0,
    x_bar := [0], c_bar := [0, 0], W := [[0], [0]],
    M := [[1, 0], [0, 199/2]] }

/-- The state `stC5` after one `fit_next` on input `[5]`. -/
def stC5r : BioState :=
  { stC5 with
    x_bar := [5],
    t := 1,
    M := [[99/1000, 0], [0, 1/2000]] }

/-- The raw (pre-stabilizer) lateral-matrix update of the `stC5` run:
`M + (step/tau) * (outer y y - M)` with `y = [0, 0]` and
`step = 1.001`. -/
def MrawC5 : Mat :=
  matAdd stC5.M (smulMat ((stC5.eta0 / (1 + stC5.decay * ((0 : Nat) : ℚ))) / stC5.tau)
    (matSub (outerL [0, 0] [0, 0]) stC5.M))

/-- A concrete `bio_nica` state used for `flip_weights` runs. -/
def stB : BioState :=
  { s_dim := 2, x_dim := 1, eta0 := 1/10, decay := 1/1000, tau := 1/2, t := 3,
    x_bar := [7], c_bar := [1, 2], W := [[1], [2]], M := [[1, 0], [0, 1]] }

/-- `stB` with row 0 of `W` negated. -/
def stBf : BioState := { stB with W := [[-1], [2]] }

/-- A concrete well-formed `two_layer_nsm` state with one source and one
mixture dimension. -/
def stT1 : TwoState :=
  { s_dim := 1, x_dim := 1, eta0 := 1/10, decay := 1/1000, t := 0,
    x_bar := [0], h_bar := [0], g_bar := [0],
    Whx := [[1]], Wgh := [[1]], Wyh := [[1]], Wyy := [[1]] }

/-- `stT1` with row 0 of `Wyh` negated. -/
def stT1f : TwoState := { stT1 with Wyh := [[-1]] }

/-- `stT1` with a zero `Wgh`, so that `Wgh.T @ Wgh` is singular. -/
def stT0 : TwoState := { stT1 with Wgh := [[0]] }

/-- A concrete `nonnegative_pca` state with 2 sources and 1 mixture. -/
def stP : PcaState :=
  { s_dim := 2, x_dim := 1, eta0 := 1/10, decay := 0, t := 0, W := [[3], [4]] }

/-- `stP` with the last row of `W` negated (the result of
`flip_weights(-1)`). -/
def stPneg : PcaState := { stP with W := [[3], [-4]] }

/-- `stP` with row 0 of `W` negated. -/
def stPf : PcaState := { stP with W := [[-3], [4]] }

/-- The state `stT1` after one `fit_next` on input `[1]` (with the zero
solver). -/
def stT1r : TwoState :=
  { stT1 with
    t := 1,
    x_bar := [1],
    h_bar := [1],
    g_bar := [1],
    Whx := [[99/100]],
    Wgh := [[99/100]],
    Wyh := [[9/10]],
    Wyy := [[9/10]] }

/-- The state `stP` after one `fit_next` on input `[2]`. -/
def stPr : PcaState :=
  { stP with
    t := 1,
    W := [[-129/5], [-172/5]] }

/-- The store holding the caller's `M0` (index 0) and `W0` (index 1)
objects for the aliasing run. -/
def storeC6 : Store := [[[1, 0], [0, 199/2]], [[0], [0]]]

/-- The learner built by `init_refs` on `storeC6`: it holds references
to the caller's objects, not copies. -/
def stR : BioRef :=
  { s_dim := 2, x_dim := 1, eta0 := 1001/1000, decay := 0, tau := 1, t := 0,
    x_bar := [0], c_bar := [0, 0], Wref := 1, Mref := 0 }

/-- The store after one `fit_next_refs` on input `[5]`: the caller's
`M0` object (index 0) now holds the updated lateral matrix. -/
def storeC6r : Store := [[[99/1000, 0], [0, 1/2000]], [[0], [0]]]

/-- The learner state after the `fit_next_refs` run on `storeC6`. -/
def stRr : BioRef :=
  { stR with
    x_bar := [5],
    t := 1 }

/-- The `two_layer_nsm` state produced by constructing with `s_dim = 2`,
`x_dim = 3` and an explicit `Whx0` of shape `(2, 2)` (accepted by the
source's assert even though the docstring demands shape
`(s_dim, x_dim) = (2, 3)`). -/
def twoInitBugState : TwoState :=
  { s_dim := 2, x_dim := 3, eta0 := 1/10, decay := 1/1000, t := 0,
    x_bar := [0, 0, 0], h_bar := [0, 0], g_bar := [0, 0],
    Whx := [[1, 1], [1, 1]], Wgh := [[1, 0], [0, 1]],
    Wyh := [[1, 1], [1, 1]], Wyy := [[1, 0], [0, 1]] }

/-
Helper lemmas about list updates (used by the `flip_weights` results).
-/

theorem getD_set_self {α : Type} (l : List α) (n : Nat) (a d : α) (h : n < l.length) :
    (l.set n a).getD n d = a := by
  induction l generalizing n with
  | nil => simp at h
  | cons b l ih =>
    cases n with
    | zero => rfl
    | succ m => exact ih m (by simpa using h)

theorem getD_set_ne {α : Type} (l : List α) (m n : Nat) (a d : α) (h : m ≠ n) :
    (l.set n a).getD m d = l.getD m d := by
  induction l generalizing m n with
  | nil => rfl
  | cons b l ih =>
    cases n with
    | zero =>
      cases m with
      | zero => exact absurd rfl h
      | succ k => rfl
    | succ n2 =>
      cases m with
      | zero => rfl
      | succ k => exact ih k n2 (by omega)

theorem set_getD_self {α : Type} (l : List α) (n : Nat) (d : α) (h : n < l.length) :
    l.set n (l.getD n d) = l := by
  induction l generalizing n with
  | nil => simp at h
  | cons b l ih =>
    cases n with
    | zero => rfl
    | succ m => simpa using ih m (by simpa using h)

theorem negRow_length (A : Mat) (j : Nat) : (negRowNat A j).length = A.length := by
  simp [negRowNat]

theorem negRow_negRow (A : Mat) (j : Nat) (h : j < A.length) :
    negRowNat (negRowNat A j) j = A := by
  unfold negRowNat
  rw [getD_set_self _ _ _ _ h, List.set_set]
  have h2 : ((A.getD j []).map fun p => -p).map (fun p => -p) = A.getD j [] := by
    simp
  rw [h2]
  exact set_getD_self A j [] h

/-
Helper lemmas for the running mean.
-/

theorem fullMeanUpd_self (x0 : Vec) (t : Nat) : fullMeanUpd x0 x0 t = x0 := by
  unfold fullMeanUpd vadd vscale vsub
  induction x0 with
  | nil => rfl
  | cons a l ih =>
    simp only [List.zipWith_cons_cons, List.map_cons, List.cons.injEq] at *
    constructor
    · rw [sub_self, mul_zero, add_zero]
    · exact ih

theorem fullMeanUpd_zeros (x0 : Vec) : fullMeanUpd (zerosV x0.length) x0 0 = x0 := by
  unfold fullMeanUpd vadd vscale vsub zerosV
  induction x0 with
  | nil => rfl
  | cons a l ih =>
    simp only [List.length_cons, List.replicate_succ, List.zipWith_cons_cons,
      List.map_cons, List.cons.injEq] at *
    constructor
    · norm_num
    · exact ih

/-- C9: a full-history running mean initialized to zero and updated `n ≥ 1`
times with the constant sample `x0` by the rule
`mean += (sample - mean)/(t+1)` equals `x0` exactly after the n-th
update. -/
theorem running_mean_constant : ∀ (x0 : Vec) (n : Nat), 1 ≤ n →
    iterateConstMean x0 n = x0 := by
  intro x0 n hn
  induction n with
  | zero => omega
  | succ m ih =>
    cases Nat.eq_zero_or_pos m with
    | inl h0 =>
      subst h0
      show fullMeanUpd (iterateConstMean x0 0) x0 0 = x0
      simpa [iterateConstMean] using fullMeanUpd_zeros x0
    | inr hpos =>
      show fullMeanUpd (iterateConstMean x0 m) x0 m = x0
      rw [ih hpos]
      exact fullMeanUpd_self x0 m

/-- Witness for C9 at the concrete sample `[3, 5]` and `n = 2`. -/
theorem running_mean_constant_witness : iterateConstMean [3, 5] 2 = [3, 5] :=
  running_mean_constant [3, 5] 2 (by decide)

/-- C8: for each learner, a succeeding `flip_weights(j)` call is undone
exactly by a second call with the same `j`; a single call changes no row
of the designated weight matrix other than row `j` and no other field of
the learner state. -/
theorem flip_weights_involution :
    (∀ (st st1 : BioState) (j : Int), bio_nica.flip_weights st j = .ok st1 →
      bio_nica.flip_weights st1 j = .ok st ∧
      (∀ i : Nat, i ≠ j.toNat → st1.W.getD i [] = st.W.getD i []) ∧
      st1.s_dim = st.s_dim ∧ st1.x_dim = st.x_dim ∧ st1.eta0 = st.eta0 ∧
      st1.decay = st.decay ∧ st1.tau = st.tau ∧ st1.t = st.t ∧
      st1.x_bar = st.x_bar ∧ st1.c_bar = st.c_bar ∧ st1.M = st.M) ∧
    (∀ (st st1 : TwoState) (j : Int), two_layer_nsm.flip_weights st j = .ok st1 →
      two_layer_nsm.flip_weights st1 j = .ok st ∧
      (∀ i : Nat, i ≠ j.toNat → st1.Wyh.getD i [] = st.Wyh.getD i []) ∧
      st1.s_dim = st.s_dim ∧ st1.x_dim = st.x_dim ∧ st1.eta0 = st.eta0 ∧
      st1.decay = st.decay ∧ st1.t = st.t ∧ st1.x_bar = st.x_bar ∧
      st1.h_bar = st.h_bar ∧ st1.g_bar = st.g_bar ∧ st1.Whx = st.Whx ∧
      st1.Wgh = st.Wgh ∧ st1.Wyy = st.Wyy) ∧
    (∀ (st st1 : PcaState) (j : Int), 0 ≤ j →
      nonnegative_pca.flip_weights st j = .ok st1 →
      nonnegative_pca.flip_weights st1 j = .ok st ∧
      (∀ i : Nat, i ≠ j.toNat → st1.W.getD i [] = st.W.getD i []) ∧
      st1.s_dim = st.s_dim ∧ st1.x_dim = st.x_dim ∧ st1.eta0 = st.eta0 ∧
      st1.decay = st.decay ∧ st1.t = st.t) := by
  refine ⟨?_, ?_, ?_⟩
  · intro st st1 j h
    unfold bio_nica.flip_weights at h
    by_cases h1 : 0 ≤ j ∧ j < (st.s_dim : Int)
    · rw [if_pos h1] at h
      by_cases h2 : j.toNat < st.W.length
      · rw [if_pos h2] at h
        injection h with h3
        subst h3
        refine ⟨?_, ?_, rfl, rfl, rfl, rfl, rfl, rfl, rfl, rfl, rfl⟩
        · unfold bio_nica.flip_weights
          rw [if_pos h1, if_pos (by rw [negRow_length]; exact h2)]
          rw [negRow_negRow st.W j.toNat h2]
        · intro i hi
          exact getD_set_ne _ _ _ _ _ hi
      · rw [if_neg h2] at h
        cases h
    · rw [if_neg h1] at h
      cases h
  · intro st st1 j h
    unfold two_layer_nsm.flip_weights at h
    by_cases h1 : 0 ≤ j ∧ j < (st.s_dim : Int)
    · rw [if_pos h1] at h
      by_cases h2 : j.toNat < st.Wyh.length
      · rw [if_pos h2] at h
        injection h with h3
        subst h3
        refine ⟨?_, ?_, rfl, rfl, rfl, rfl, rfl, rfl, rfl, rfl, rfl, rfl, rfl⟩
        · unfold two_layer_nsm.flip_weights
          rw [if_pos h1, if_pos (by rw [negRow_length]; exact h2)]
          rw [negRow_negRow st.Wyh j.toNat h2]
        · intro i hi
          exact getD_set_ne _ _ _ _ _ hi
      · rw [if_neg h2] at h
        cases h
    · rw [if_neg h1] at h
      cases h
  · intro st st1 j hj h
    simp only [nonnegative_pca.flip_weights] at h
    rw [if_neg (by omega : ¬ j < 0)] at h
    by_cases h1 : 0 ≤ j ∧ j < (st.W.length : Int)
    · rw [if_pos h1] at h
      injection h with h3
      subst h3
      have hlt : j.toNat < st.W.length := by omega
      refine ⟨?_, ?_, rfl, rfl, rfl, rfl, rfl⟩
      · simp only [nonnegative_pca.flip_weights]
        rw [negRow_length]
        rw [if_neg (by omega : ¬ j < 0), if_pos h1]
        rw [negRow_negRow st.W j.toNat hlt]
      · intro i hi
        exact getD_set_ne _ _ _ _ _ hi
    · rw [if_neg h1] at h
      cases h

/-- Witness for C8: the involution equations at concrete states for all
three learners. -/
theorem flip_weights_involution_witness :
    bio_nica.flip_weights stBf 0 = .ok stB ∧
    two_layer_nsm.flip_weights stT1f 0 = .ok stT1 ∧
    nonnegative_pca.flip_weights stPf 0 = .ok stP :=
  ⟨(flip_weights_involution.1 stB stBf 0 rfl).1,
   (flip_weights_involution.2.1 stT1 stT1f 0 rfl).1,
   (flip_weights_involution.2.2 stP stPf 0 (by decide) rfl).1⟩

/-- C4 counterexample: `nonnegative_pca.flip_weights(-1)` with
`-1` outside `[0, s_dim) = [0, 2)` does not fail with an index error: it
returns normally and negates the last row of `W` (numpy wraparound
indexing), so the claim is false as stated. -/
theorem flip_weights_range_counterexample :
    nonnegative_pca.flip_weights stP (-1) = .ok stPneg ∧
    stPneg ≠ stP ∧
    (((-1 : Int) < 0 ∨ (stP.s_dim : Int) ≤ -1)) :=
  ⟨rfl, by decide, by decide⟩

/-- C4 (amended): `bio_nica` and `two_layer_nsm` assert `0 ≤ j < s_dim`
and fail with an index error leaving the state unchanged otherwise; for a
valid `j` (that is a row of the weight matrix) they negate exactly row
`j` of `W` resp. `Wyh`.  `nonnegative_pca` has no bounds check: a `j`
with `-rows ≤ j < 0` wraps around and negates row `rows + j`; a `j`
outside `[-rows, rows)` fails with the numpy index error, state
unchanged; a `j` in `[0, rows)` negates row `j`. -/
theorem flip_weights_range_amended :
    (∀ (st : BioState) (j : Int), (j < 0 ∨ (st.s_dim : Int) ≤ j) →
      bio_nica.flip_weights st j = .error (st, Err.indexError)) ∧
    (∀ (st : BioState) (j : Int), 0 ≤ j → j < (st.s_dim : Int) →
      j.toNat < st.W.length →
      bio_nica.flip_weights st j = .ok { st with W := negRowNat st.W j.toNat }) ∧
    (∀ (st : TwoState) (j : Int), (j < 0 ∨ (st.s_dim : Int) ≤ j) →
      two_layer_nsm.flip_weights st j = .error (st, Err.indexError)) ∧
    (∀ (st : TwoState) (j : Int), 0 ≤ j → j < (st.s_dim : Int) →
      j.toNat < st.Wyh.length →
      two_layer_nsm.flip_weights st j = .ok { st with Wyh := negRowNat st.Wyh j.toNat }) ∧
    (∀ (st : PcaState) (j : Int),
      (j < -(st.W.length : Int) ∨ (st.W.length : Int) ≤ j) →
      nonnegative_pca.flip_weights st j = .error (st, Err.indexError)) ∧
    (∀ (st : PcaState) (j : Int), -(st.W.length : Int) ≤ j → j < 0 →
      nonnegative_pca.flip_weights st j =
        .ok { st with W := negRowNat st.W (j + (st.W.length : Int)).toNat }) ∧
    (∀ (st : PcaState) (j : Int), 0 ≤ j → j < (st.W.length : Int) →
      nonnegative_pca.flip_weights st j =
        .ok { st with W := negRowNat st.W j.toNat }) := by
  refine ⟨?_, ?_, ?_, ?_, ?_, ?_, ?_⟩
  · intro st j hj
    unfold bio_nica.flip_weights
    rw [if_neg (by omega)]
  · intro st j hj1 hj2 hj3
    unfold bio_nica.flip_weights
    rw [if_pos ⟨hj1, hj2⟩, if_pos hj3]
  · intro st j hj
    unfold two_layer_nsm.flip_weights
    rw [if_neg (by omega)]
  · intro st j hj1 hj2 hj3
    unfold two_layer_nsm.flip_weights
    rw [if_pos ⟨hj1, hj2⟩, if_pos hj3]
  · intro st j hj
    simp only [nonnegative_pca.flip_weights]
    by_cases hneg : j < 0
    · rw [if_pos hneg, if_neg (by omega)]
    · rw [if_neg hneg, if_neg (by omega)]
  · intro st j hj1 hj2
    simp only [nonnegative_pca.flip_weights]
    rw [if_pos hj2, if_pos (by omega)]
  · intro st j hj1 hj2
    simp only [nonnegative_pca.flip_weights]
    rw [if_neg (by omega : ¬ j < 0), if_pos ⟨hj1, hj2⟩]

/-- Witness for C4 (amended) at concrete inputs: an out-of-range index on
`bio_nica`, a wrapping negative index on `nonnegative_pca`, and a valid
index on `two_layer_nsm`. -/
theorem flip_weights_range_amended_witness :
    bio_nica.flip_weights stB 5 = .error (stB, Err.indexError) ∧
    nonnegative_pca.flip_weights stP (-1) =
      .ok { stP with W := negRowNat stP.W ((-1) + (stP.W.length : Int)).toNat } ∧
    two_layer_nsm.flip_weights stT1 0 =
      .ok { stT1 with Wyh := negRowNat stT1.Wyh (0 : Int).toNat } :=
  ⟨flip_weights_range_amended.1 stB 5 (Or.inr (by decide)),
   flip_weights_range_amended.2.2.2.2.2.1 stP (-1) (by decide) (by decide),
   flip_weights_range_amended.2.2.2.1 stT1 0 (by decide) (by decide) (by decide)⟩

/-- C7: evaluation of the constructor at the failing input.  With
`s_dim = 2`, `x_dim = 3`, an explicit `Whx0` of the documented shape
`(s_dim, x_dim) = (2, 3)` is rejected with a shape error, while a
`Whx0` of shape `(2, 2)` — which the docstring and the assert's own
message forbid — is accepted: the assert on line 163 compares against
`(s_dim, s_dim)` instead of `(s_dim, x_dim)`. -/
theorem two_layer_init_whx_shape_bug :
    two_layer_nsm.init defWones 2 3 none (some [[1, 1, 1], [1, 1, 1]])
      none none none none none = .error Err.shapeError ∧
    two_layer_nsm.init defWones 2 3 none (some [[1, 1], [1, 1]])
      none none none none none = .ok twoInitBugState :=
  ⟨rfl, rfl⟩

/-- C10: in `two_layer_nsm.fit_next` the inversion of the Gram matrix
`Wghᵗ·Wgh` is the first computation; if that matrix is singular the call
fails with the linear-algebra error and the returned error state is the
unchanged input state (no field has been mutated).  The stabilizer plays
no role here: it regularizes only `Wyy`, later in the call. -/
theorem gram_singular_fail_fast : ∀ (qp : QPSolver) (st : TwoState) (x : Vec),
    detL (matMulL (transposeL st.Wgh) st.Wgh) = 0 →
    two_layer_nsm.fit_next qp st x = .error (st, Err.singularMatrix) := by
  intro qp st x h
  simp [two_layer_nsm.fit_next, h]

/-- Witness for C10 at a concrete state with `Wgh = [[0]]`. -/
theorem gram_singular_fail_fast_witness :
    detL (matMulL (transposeL stT0.Wgh) stT0.Wgh) = 0 ∧
    two_layer_nsm.fit_next qpZero stT0 [3] = .error (stT0, Err.singularMatrix) :=
  ⟨by decide, gram_singular_fail_fast qpZero stT0 [3] (by decide)⟩

/-- Decomposition of a succeeding `bio_nica.step_core` run into the
projection, the QP solve, and the closed-form update formulas. -/
theorem bio_step_core_ok (qp : QPSolver) (s t : Nat) (eta0 decay tau : ℚ)
    (x_bar c_bar : Vec) (W M : Mat) (x : Vec) (xb cb : Vec) (W2 M2 : Mat) (y : Vec) :
    bio_nica.step_core qp s t eta0 decay tau x_bar c_bar W M x = .ok (xb, cb, W2, M2, y) →
    ∃ c, matVecE W x = .ok c ∧ qp M c (eyeL s) (zerosV s) = some y ∧
      xb = fullMeanUpd x_bar x t ∧ cb = fixedMeanUpd c_bar c ∧
      W2 = matAdd W (smulMat (2 * (eta0 / (1 + decay * (t : ℚ))))
        (matSub (outerL y x) (outerL (vsub c cb) (vsub x xb)))) ∧
      M2 = stabilizeL s (matAdd M (smulMat ((eta0 / (1 + decay * (t : ℚ))) / tau)
        (matSub (outerL y y) M))) := by
  intro h
  unfold bio_nica.step_core at h
  cases hc : matVecE W x with
  | error e =>
    simp only [hc] at h
    cases h
  | ok c =>
    simp only [hc] at h
    cases hq : qp M c (eyeL s) (zerosV s) with
    | none =>
      simp only [hq] at h
      cases h
    | some y0 =>
      simp only [hq] at h
      by_cases h1 : x.length = x_bar.length
      · rw [if_pos h1] at h
        by_cases h2 : c.length = c_bar.length
        · rw [if_pos h2] at h
          injection h with h3
          simp only [Prod.mk.injEq] at h3
          obtain ⟨h4, h5, h6, h7, h8⟩ := h3
          subst h8
          exact ⟨c, rfl, hq, h4.symm, h5.symm, by rw [← h4, ← h5, h6], h7.symm⟩
        · rw [if_neg h2] at h
          cases h
      · rw [if_neg h1] at h
        cases h

/-- Decomposition of a succeeding `bio_nica.fit_next` call into the shape
check, the core step, and the state write-back. -/
theorem bio_fit_next_ok (qp : QPSolver) (st : BioState) (x : Vec) (st2 : BioState) (y : Vec) :
    bio_nica.fit_next qp st x = .ok (st2, y) →
    x.length = st.x_dim ∧ ∃ xb cb W2 M2,
      bio_nica.step_core qp st.s_dim st.t st.eta0 st.decay st.tau st.x_bar st.c_bar
        st.W st.M x = .ok (xb, cb, W2, M2, y) ∧
      st2 = { st with x_bar := xb, c_bar := cb, W := W2, M := M2, t := st.t + 1 } := by
  intro h
  unfold bio_nica.fit_next at h
  by_cases h1 : x.length = st.x_dim
  · rw [if_pos h1] at h
    refine ⟨h1, ?_⟩
    cases hs : bio_nica.step_core qp st.s_dim st.t st.eta0 st.decay st.tau st.x_bar
        st.c_bar st.W st.M x with
    | error p =>
      obtain ⟨xb, e⟩ := p
      simp only [hs] at h
      cases h
    | ok q =>
      obtain ⟨xb, cb, W2, M2, y0⟩ := q
      simp only [hs] at h
      injection h with h2
      simp only [Prod.mk.injEq] at h2
      obtain ⟨h3, h4⟩ := h2
      subst h4
      exact ⟨xb, cb, W2, M2, rfl, h3.symm⟩
  · rw [if_neg h1] at h
    cases h

/-- Decomposition of a succeeding `nonnegative_pca.fit_next` call. -/
theorem pca_fit_next_ok (st : PcaState) (x : Vec) (st2 : PcaState) (y : Vec) :
    nonnegative_pca.fit_next st x = .ok (st2, y) →
    x.length = st.x_dim ∧ ∃ p, matVecE st.W x = .ok p ∧ y = p.map (fun a => max a 0) ∧
      st2.W = matAdd st.W (smulMat (st.eta0 / (1 + st.decay * (st.t : ℚ)))
        (matSub (outerL y x) (matMulL (outerL y y) st.W))) ∧
      st2.t = st.t + 1 ∧ st2.s_dim = st.s_dim ∧ st2.x_dim = st.x_dim := by
  intro h
  unfold nonnegative_pca.fit_next at h
  by_cases h1 : x.length = st.x_dim
  · rw [if_pos h1] at h
    refine ⟨h1, ?_⟩
    cases hp : matVecE st.W x with
    | error e =>
      simp only [hp] at h
      cases h
    | ok p =>
      simp only [hp] at h
      injection h with h2
      simp only [Prod.mk.injEq] at h2
      obtain ⟨h3, h4⟩ := h2
      subst h4
      exact ⟨p, rfl, rfl, by rw [← h3], by rw [← h3], by rw [← h3], by rw [← h3]⟩
  · rw [if_neg h1] at h
    cases h

/-- Decomposition of a succeeding `two_layer_nsm.fit_next` call into the
Gram inversion, the two projections, the QP solve, and the closed-form
update formulas. -/
theorem two_fit_next_ok (qp : QPSolver) (st : TwoState) (x : Vec) (st2 : TwoState) (y : Vec) :
    two_layer_nsm.fit_next qp st x = .ok (st2, y) →
    ∃ hv gv cv, detL (matMulL (transposeL st.Wgh) st.Wgh) ≠ 0 ∧
      matVecE (matMulL (matInvL (matMulL (transposeL st.Wgh) st.Wgh)) st.Whx) x = .ok hv ∧
      matVecE st.Wgh hv = .ok gv ∧
      matVecE st.Wyh hv = .ok cv ∧
      qp st.Wyy cv (eyeL st.s_dim) (zerosV st.s_dim) = some y ∧
      st2.x_bar = fullMeanUpd st.x_bar x st.t ∧
      st2.h_bar = fullMeanUpd st.h_bar hv st.t ∧
      st2.g_bar = fullMeanUpd st.g_bar gv st.t ∧
      st2.Whx = matAdd st.Whx (smulMat (1 / (100 + (st.t : ℚ)))
        (matSub (outerL (vsub hv st2.h_bar) (vsub x st2.x_bar)) st.Whx)) ∧
      st2.Wgh = matAdd st.Wgh (smulMat (1 / (100 + (st.t : ℚ)))
        (matSub (outerL (vsub gv st2.g_bar) (vsub hv st2.h_bar)) st.Wgh)) ∧
      st2.Wyh = matAdd st.Wyh (smulMat (st.eta0 / (1 + st.decay * (st.t : ℚ)))
        (matSub (outerL y hv) st.Wyh)) ∧
      st2.Wyy = stabilizeL st.s_dim (matAdd st.Wyy
        (smulMat (st.eta0 / (1 + st.decay * (st.t : ℚ))) (matSub (outerL y y) st.Wyy))) ∧
      st2.t = st.t + 1 := by
  intro hfit
  simp only [two_layer_nsm.fit_next] at hfit
  by_cases hdet : detL (matMulL (transposeL st.Wgh) st.Wgh) = 0
  · rw [if_pos hdet] at hfit
    cases hfit
  · rw [if_neg hdet] at hfit
    cases hh : matVecE (matMulL (matInvL (matMulL (transposeL st.Wgh) st.Wgh)) st.Whx) x with
    | error e =>
      simp only [hh] at hfit
      cases hfit
    | ok hv =>
      simp only [hh] at hfit
      cases hg : matVecE st.Wgh hv with
      | error e =>
        simp only [hg] at hfit
        cases hfit
      | ok gv =>
        simp only [hg] at hfit
        by_cases hlen : x.length = st.x_bar.length ∧ hv.length = st.h_bar.length ∧
            gv.length = st.g_bar.length
        · rw [if_pos hlen] at hfit
          cases hc : matVecE st.Wyh hv with
          | error e =>
            simp only [hc] at hfit
            cases hfit
          | ok cv =>
            simp only [hc] at hfit
            cases hqp : qp st.Wyy cv (eyeL st.s_dim) (zerosV st.s_dim) with
            | none =>
              simp only [hqp] at hfit
              cases hfit
            | some y0 =>
              simp only [hqp] at hfit
              injection hfit with h2
              simp only [Prod.mk.injEq] at h2
              obtain ⟨h3, h4⟩ := h2
              subst h4
              subst h3
              exact ⟨hv, gv, cv, hdet, rfl, hg, hc, hqp, rfl, rfl, rfl, rfl, rfl,
                rfl, rfl, rfl⟩
        · rw [if_neg hlen] at hfit
          cases hfit

/-- The concrete zero solver satisfies the nonnegativity consequence of
the QP contract (its output is feasible for `y ≥ 0`). -/
theorem qpZero_nonneg : ∀ (M : Mat) (c : Vec) (A : Mat) (b y : Vec),
    qpZero M c A b = some y → allNonneg y := by
  intro M c A b y h
  injection h with h2
  subst h2
  intro p hp
  obtain ⟨a, ha, h3⟩ := List.mem_map.mp hp
  rw [← h3]

/-- C1: for any solver satisfying the QP contract consequence that its
result is feasible for the constraint `Identity·y ≥ 0`, every vector `y`
returned by a succeeding `fit_next` of any of the three learners is
componentwise nonnegative. -/
theorem returned_y_componentwise_nonneg (qp : QPSolver)
    (hqp : ∀ (M : Mat) (c : Vec) (A : Mat) (b y : Vec), qp M c A b = some y → allNonneg y) :
    (∀ (st : BioState) (x : Vec) (st2 : BioState) (y : Vec),
      bio_nica.fit_next qp st x = .ok (st2, y) → allNonneg y) ∧
    (∀ (st : TwoState) (x : Vec) (st2 : TwoState) (y : Vec),
      two_layer_nsm.fit_next qp st x = .ok (st2, y) → allNonneg y) ∧
    (∀ (st : PcaState) (x : Vec) (st2 : PcaState) (y : Vec),
      nonnegative_pca.fit_next st x = .ok (st2, y) → allNonneg y) := by
  refine ⟨?_, ?_, ?_⟩
  · intro st x st2 y h
    obtain ⟨-, xb, cb, W2, M2, hs, -⟩ := bio_fit_next_ok qp st x st2 y h
    obtain ⟨c, -, hq, -⟩ := bio_step_core_ok qp st.s_dim st.t st.eta0 st.decay st.tau
      st.x_bar st.c_bar st.W st.M x xb cb W2 M2 y hs
    exact hqp st.M c (eyeL st.s_dim) (zerosV st.s_dim) y hq
  · intro st x st2 y h
    obtain ⟨hv, gv, cv, -, -, -, hc, hq, -⟩ := two_fit_next_ok qp st x st2 y h
    exact hqp st.Wyy cv (eyeL st.s_dim) (zerosV st.s_dim) y hq
  · intro st x st2 y h
    obtain ⟨-, p, -, hy, -⟩ := pca_fit_next_ok st x st2 y h
    subst hy
    intro q hq
    obtain ⟨a, ha, h3⟩ := List.mem_map.mp hq
    rw [← h3]
    exact le_max_right a 0

/-- Witness for C1: concrete succeeding runs of all three learners, with
the zero solver (the genuine argmin at each call site). -/
theorem returned_y_componentwise_nonneg_witness :
    allNonneg [(0 : ℚ), 0] ∧ allNonneg [(0 : ℚ)] ∧ allNonneg [(6 : ℚ), 8] :=
  ⟨(returned_y_componentwise_nonneg qpZero qpZero_nonneg).1 stC5 [5] stC5r [0, 0] rfl,
   (returned_y_componentwise_nonneg qpZero qpZero_nonneg).2.1 stT1 [1] stT1r [0] rfl,
   (returned_y_componentwise_nonneg qpZero qpZero_nonneg).2.2 stP [2] stPr [6, 8] rfl⟩

/-- C2: one succeeding `bio_nica.fit_next(x)` call performs exactly the
specified updates in the specified order: with `c = W·x` and `y` the
solver output for `(M, c)`, the running means are updated first
(`x̄ += (x−x̄)/(t+1)`, `c̄ += (c−c̄)/100`), and then with
`step = eta0/(1+decay·t)` (pre-increment `t`) the weights become
`W + 2·step·(y xᵗ − (c−c̄)(x−x̄)ᵗ)` (with the already-updated means)
and `M + (step/tau)·(y yᵗ − M)` (then passed through the degeneracy
guard, claim C5), and `t` increments by one. -/
theorem bio_fit_next_update_order :
    ∀ (qp : QPSolver) (st : BioState) (x : Vec) (st2 : BioState) (y c : Vec),
    bio_nica.fit_next qp st x = .ok (st2, y) → matVecE st.W x = .ok c →
    qp st.M c (eyeL st.s_dim) (zerosV st.s_dim) = some y ∧
    st2.x_bar = fullMeanUpd st.x_bar x st.t ∧
    st2.c_bar = fixedMeanUpd st.c_bar c ∧
    st2.W = matAdd st.W (smulMat (2 * (st.eta0 / (1 + st.decay * (st.t : ℚ))))
      (matSub (outerL y x) (outerL (vsub c st2.c_bar) (vsub x st2.x_bar)))) ∧
    st2.M = stabilizeL st.s_dim (matAdd st.M
      (smulMat ((st.eta0 / (1 + st.decay * (st.t : ℚ))) / st.tau)
        (matSub (outerL y y) st.M))) ∧
    st2.t = st.t + 1 := by
  intro qp st x st2 y c h hc
  obtain ⟨-, xb, cb, W2, M2, hs, hst⟩ := bio_fit_next_ok qp st x st2 y h
  obtain ⟨c0, hc0, hq, hxb, hcb, hW, hM⟩ := bio_step_core_ok qp st.s_dim st.t st.eta0
    st.decay st.tau st.x_bar st.c_bar st.W st.M x xb cb W2 M2 y hs
  rw [hc0] at hc
  injection hc with hcc
  subst hcc
  subst hst
  exact ⟨hq, hxb, hcb, hW, hM, rfl⟩

/-- Witness for C2: the update equations instantiated on the concrete
`stC5` run. -/
theorem bio_fit_next_update_order_witness :
    qpZero stC5.M [0, 0] (eyeL stC5.s_dim) (zerosV stC5.s_dim) = some [0, 0] ∧
    stC5r.x_bar = fullMeanUpd stC5.x_bar [5] stC5.t ∧
    stC5r.c_bar = fixedMeanUpd stC5.c_bar [0, 0] ∧
    stC5r.W = matAdd stC5.W (smulMat (2 * (stC5.eta0 / (1 + stC5.decay * (stC5.t : ℚ))))
      (matSub (outerL [0, 0] [5]) (outerL (vsub [0, 0] stC5r.c_bar) (vsub [5] stC5r.x_bar)))) ∧
    stC5r.M = stabilizeL stC5.s_dim (matAdd stC5.M
      (smulMat ((stC5.eta0 / (1 + stC5.decay * (stC5.t : ℚ))) / stC5.tau)
        (matSub (outerL [0, 0] [0, 0]) stC5.M))) ∧
    stC5r.t = stC5.t + 1 :=
  bio_fit_next_update_order qpZero stC5 [5] stC5r [0, 0] [0, 0] rfl rfl

/-- C5 counterexample: a succeeding `bio_nica.fit_next` call (with the
genuine constrained argmin `y = 0` for the positive definite `M` and
zero linear term) in which the raw lateral update has determinant
`199/2000000 < 1/10000`, the stabilizer fires, and the determinant after
adding `0.1 × Identity` is `99/2000000`, strictly SMALLER than before —
refuting the claimed strict increase. -/
theorem stabilizer_det_counterexample :
    bio_nica.fit_next qpZero stC5 [5] = .ok (stC5r, [0, 0]) ∧
    detL MrawC5 < 1 / 10000 ∧
    stC5r.M = matAdd MrawC5 (smulMat (1 / 10) (eyeL 2)) ∧
    detL stC5r.M < detL MrawC5 :=
  ⟨rfl, by decide, by decide, by decide⟩

/-- C5 (amended): in every succeeding `fit_next` call of `bio_nica` and
`two_layer_nsm`, if the raw lateral update (`M` resp. `Wyy`) has
determinant below `10^-4` then `0.1 × Identity` is added to it exactly
once, and otherwise the matrix is left exactly as the raw update produced
it.  (The determinant after the addition need not be larger — see the
counterexample.) -/
theorem stabilizer_amended :
    (∀ (qp : QPSolver) (st : BioState) (x : Vec) (st2 : BioState) (y : Vec),
      bio_nica.fit_next qp st x = .ok (st2, y) →
      (detL (matAdd st.M (smulMat ((st.eta0 / (1 + st.decay * (st.t : ℚ))) / st.tau)
          (matSub (outerL y y) st.M))) < 1 / 10000 →
        st2.M = matAdd (matAdd st.M (smulMat ((st.eta0 / (1 + st.decay * (st.t : ℚ))) / st.tau)
          (matSub (outerL y y) st.M))) (smulMat (1 / 10) (eyeL st.s_dim))) ∧
      (¬ detL (matAdd st.M (smulMat ((st.eta0 / (1 + st.decay * (st.t : ℚ))) / st.tau)
          (matSub (outerL y y) st.M))) < 1 / 10000 →
        st2.M = matAdd st.M (smulMat ((st.eta0 / (1 + st.decay * (st.t : ℚ))) / st.tau)
          (matSub (outerL y y) st.M)))) ∧
    (∀ (qp : QPSolver) (st : TwoState) (x : Vec) (st2 : TwoState) (y : Vec),
      two_layer_nsm.fit_next qp st x = .ok (st2, y) →
      (detL (matAdd st.Wyy (smulMat (st.eta0 / (1 + st.decay * (st.t : ℚ)))
          (matSub (outerL y y) st.Wyy))) < 1 / 10000 →
        st2.Wyy = matAdd (matAdd st.Wyy (smulMat (st.eta0 / (1 + st.decay * (st.t : ℚ)))
          (matSub (outerL y y) st.Wyy))) (smulMat (1 / 10) (eyeL st.s_dim))) ∧
      (¬ detL (matAdd st.Wyy (smulMat (st.eta0 / (1 + st.decay * (st.t : ℚ)))
          (matSub (outerL y y) st.Wyy))) < 1 / 10000 →
        st2.Wyy = matAdd st.Wyy (smulMat (st.eta0 / (1 + st.decay * (st.t : ℚ)))
          (matSub (outerL y y) st.Wyy)))) := by
  constructor
  · intro qp st x st2 y h
    obtain ⟨-, xb, cb, W2, M2, hs, hst⟩ := bio_fit_next_ok qp st x st2 y h
    obtain ⟨c0, -, -, -, -, -, hM⟩ := bio_step_core_ok qp st.s_dim st.t st.eta0
      st.decay st.tau st.x_bar st.c_bar st.W st.M x xb cb W2 M2 y hs
    subst hst
    constructor
    · intro hdet
      show M2 = _
      rw [hM]
      unfold stabilizeL
      rw [if_pos hdet]
    · intro hdet
      show M2 = _
      rw [hM]
      unfold stabilizeL
      rw [if_neg hdet]
  · intro qp st x st2 y h
    obtain ⟨hv, gv, cv, -, -, -, -, -, -, -, -, -, -, -, hWyy, -⟩ :=
      two_fit_next_ok qp st x st2 y h
    constructor
    · intro hdet
      rw [hWyy]
      unfold stabilizeL
      rw [if_pos hdet]
    · intro hdet
      rw [hWyy]
      unfold stabilizeL
      rw [if_neg hdet]

/-- Witness for C5 (amended): the firing branch on the concrete `stC5`
run and the non-firing branch on the concrete `stT1` run. -/
theorem stabilizer_amended_witness :
    stC5r.M = matAdd (matAdd stC5.M (smulMat ((stC5.eta0 / (1 + stC5.decay * (stC5.t : ℚ))) / stC5.tau)
      (matSub (outerL [0, 0] [0, 0]) stC5.M))) (smulMat (1 / 10) (eyeL stC5.s_dim)) ∧
    stT1r.Wyy = matAdd stT1.Wyy (smulMat (stT1.eta0 / (1 + stT1.decay * (stT1.t : ℚ)))
      (matSub (outerL [0] [0]) stT1.Wyy)) :=
  ⟨(stabilizer_amended.1 qpZero stC5 [5] stC5r [0, 0] rfl).1 (by decide),
   (stabilizer_amended.2 qpZero stT1 [1] stT1r [0] rfl).2 (by decide)⟩

/-- If some row of `A` has a length different from `v`, the product
`A @ v` raises the dimension-mismatch error. -/
theorem matVecE_error (A : Mat) (v : Vec) (r : Vec) (hr : r ∈ A)
    (hlen : r.length ≠ v.length) : matVecE A v = .error Err.dimMismatch := by
  have H : ¬ (A.all (fun r => r.length = v.length) = true) := by
    simp only [List.all_eq_true, decide_eq_true_eq]
    intro hall
    exact hlen (hall r hr)
  unfold matVecE
  rw [if_neg H]

/-- Every row of `A @ B` has length equal to the column count of `B`. -/
theorem matMulL_row_length (A B : Mat) (r : Vec) (hr : r ∈ matMulL A B) :
    r.length = (B.headD []).length := by
  unfold matMulL at hr
  obtain ⟨a, ha, hfa⟩ := List.mem_map.mp hr
  rw [← hfa]
  simp [transposeL]

/-- Row count of a matrix product. -/
theorem matMulL_length (A B : Mat) : (matMulL A B).length = A.length := by
  simp [matMulL]

/-- Row count of the Gram matrix `Wghᵗ·Wgh`: the column count of
`Wgh`. -/
theorem gram_length (A : Mat) :
    (matMulL (transposeL A) A).length = (A.headD []).length := by
  simp [matMulL, transposeL]

/-- Row count of the adjugate inverse. -/
theorem matInvL_length (A : Mat) : (matInvL A).length = A.length := by
  simp [matInvL, smulMat, adjL]

/-- C3 counterexample: `two_layer_nsm.fit_next` on a wrong-length input
fails with the numpy dimension-mismatch error raised inside the first
matrix product, not with the boundary ShapeError of the other two
learners (there is no input-shape assert in `two_layer_nsm.fit_next`). -/
theorem fit_next_bad_length_counterexample :
    two_layer_nsm.fit_next qpZero stT1 [1, 2] = .error (stT1, Err.dimMismatch) ∧
    Err.dimMismatch ≠ Err.shapeError ∧
    ([1, 2] : Vec).length ≠ stT1.x_dim :=
  ⟨rfl, by decide, by decide⟩

/-- C3 (amended): `bio_nica.fit_next` and `nonnegative_pca.fit_next`
validate the input length at the boundary and fail with ShapeError,
leaving the state unchanged.  `two_layer_nsm.fit_next` has no boundary
check: on a well-formed state (positive source count, `Wgh` with `s_dim`
columns, `Whx` with `x_dim` columns, invertible Gram matrix) a
wrong-length input makes the call fail with the dimension-mismatch error
of the `@` product — still before any state mutation, as the error state
is the unchanged input state. -/
theorem fit_next_bad_length_amended :
    (∀ (qp : QPSolver) (st : BioState) (x : Vec), x.length ≠ st.x_dim →
      bio_nica.fit_next qp st x = .error (st, Err.shapeError)) ∧
    (∀ (st : PcaState) (x : Vec), x.length ≠ st.x_dim →
      nonnegative_pca.fit_next st x = .error (st, Err.shapeError)) ∧
    (∀ (qp : QPSolver) (st : TwoState) (x : Vec),
      0 < st.s_dim → (st.Wgh.headD []).length = st.s_dim →
      (st.Whx.headD []).length = st.x_dim →
      detL (matMulL (transposeL st.Wgh) st.Wgh) ≠ 0 →
      x.length ≠ st.x_dim →
      two_layer_nsm.fit_next qp st x = .error (st, Err.dimMismatch)) := by
  refine ⟨?_, ?_, ?_⟩
  · intro qp st x hx
    unfold bio_nica.fit_next
    rw [if_neg hx]
  · intro st x hx
    unfold nonnegative_pca.fit_next
    rw [if_neg hx]
  · intro qp st x hs hWgh hWhx hdet hx
    have hPlen : (matMulL (matInvL (matMulL (transposeL st.Wgh) st.Wgh)) st.Whx).length
        = st.s_dim := by
      rw [matMulL_length, matInvL_length, gram_length, hWgh]
    have hPpos : 0 < (matMulL (matInvL (matMulL (transposeL st.Wgh) st.Wgh)) st.Whx).length := by
      omega
    obtain ⟨r0, hr0⟩ := List.exists_mem_of_length_pos hPpos
    have hr0len : r0.length = st.x_dim := by
      rw [matMulL_row_length _ st.Whx r0 hr0, hWhx]
    have hP : matVecE (matMulL (matInvL (matMulL (transposeL st.Wgh) st.Wgh)) st.Whx) x
        = .error Err.dimMismatch :=
      matVecE_error _ x r0 hr0 (by omega)
    simp only [two_layer_nsm.fit_next]
    rw [if_neg hdet, hP]

/-- Witness for C3 (amended): concrete wrong-length calls on all three
learners. -/
theorem fit_next_bad_length_amended_witness :
    bio_nica.fit_next qpZero stB [1, 2] = .error (stB, Err.shapeError) ∧
    nonnegative_pca.fit_next stP [1, 2] = .error (stP, Err.shapeError) ∧
    two_layer_nsm.fit_next qpZero stT1 [1, 2, 3] = .error (stT1, Err.dimMismatch) :=
  ⟨fit_next_bad_length_amended.1 qpZero stB [1, 2] (by decide),
   fit_next_bad_length_amended.2.1 stP [1, 2] (by decide),
   fit_next_bad_length_amended.2.2 qpZero stT1 [1, 2, 3] (by decide) (by decide)
     (by decide) (by decide) (by decide)⟩

/-- C6 counterexample: construction stores the caller's `M0` object
(store index 0) by reference, and one `fit_next` call mutates it in
place — afterwards the caller's object no longer holds its original
value, refuting "construction copies and later calls never mutate the
caller's matrices". -/
theorem aliasing_counterexample :
    bio_nica.init_refs 2 1 storeC6 0 1 (1001/1000) 0 1 = .ok stR ∧
    bio_nica.fit_next_refs qpZero storeC6 stR [5] = .ok (storeC6r, stRr, [0, 0]) ∧
    storeC6r.getD 0 [] ≠ storeC6.getD 0 [] :=
  ⟨rfl, rfl, by decide⟩

/-- C6 (amended): `bio_nica.__init__` aliases the caller-supplied
matrices rather than copying them, and a succeeding `fit_next` writes
the updated `W` and `M` through the caller's references (in-place
`+=`): afterwards the caller's objects hold the learner's updated
weight matrices, and the learner still references the caller's objects.
(The source behaves likewise for `nonnegative_pca`, and `two_layer_nsm`
aliases its four matrices until the first `fit_next` rebinds them.) -/
theorem aliasing_amended :
    ∀ (qp : QPSolver) (store : Store) (st : BioRef) (x : Vec) (store2 : Store)
      (st2 : BioRef) (y : Vec) (xb cb : Vec) (W2 M2 : Mat),
    st.Wref ≠ st.Mref → st.Wref < store.length → st.Mref < store.length →
    bio_nica.fit_next_refs qp store st x = .ok (store2, st2, y) →
    bio_nica.step_core qp st.s_dim st.t st.eta0 st.decay st.tau st.x_bar st.c_bar
      (store.getD st.Wref []) (store.getD st.Mref []) x = .ok (xb, cb, W2, M2, y) →
    store2.getD st.Mref [] = M2 ∧ store2.getD st.Wref [] = W2 ∧
    st2.Wref = st.Wref ∧ st2.Mref = st.Mref := by
  intro qp store st x store2 st2 y xb cb W2 M2 hne hW hM hfit hcore
  unfold bio_nica.fit_next_refs at hfit
  by_cases h1 : x.length = st.x_dim
  · rw [if_pos h1] at hfit
    simp only [hcore] at hfit
    injection hfit with h2
    simp only [Prod.mk.injEq] at h2
    obtain ⟨hstore, hst2, -⟩ := h2
    subst hstore
    refine ⟨?_, ?_, by rw [← hst2], by rw [← hst2]⟩
    · exact getD_set_self _ _ _ _ (by simpa using hM)
    · rw [getD_set_ne _ _ _ _ _ hne]
      exact getD_set_self _ _ _ _ hW
  · rw [if_neg h1] at hfit
    cases hfit

/-- Witness for C6 (amended) on the concrete `storeC6` run: the caller's
slots hold the updated matrices afterwards. -/
theorem aliasing_amended_witness :
    storeC6r.getD stR.Mref [] = [[99/1000, 0], [0, 1/2000]] ∧
    storeC6r.getD stR.Wref [] = [[0], [0]] ∧
    stRr.Wref = stR.Wref ∧ stRr.Mref = stR.Mref :=
  aliasing_amended qpZero storeC6 stR [5] storeC6r stRr [0, 0] [5] [0, 0] [[0], [0]]
    [[99/1000, 0], [0, 1/2000]] (by decide) (by decide) (by decide) rfl rfl
